import Mathlib

/-!
Verification of the Enviratron filename/path metadata extractor
(`enviratron_filename_parser.py`) and of the downstream hyperspectral
image-reconstruction collaborator (`make_images_from_numpy_data.py`).

The Python code is shallowly embedded: every method of
`EnviratronFileNameParser` becomes a pure Lean function over `List Char`
(the character sequence of the path string), and every uncaught Python
exception becomes `none` of an `Option` result.  Machine-level details the
source never relies on (Unicode digit classes, whitespace-stripping in
`int()`) are out of scope: `int()` is modelled on an optional sign followed
by ASCII digits, which is exact on every token shape the naming
conventions produce.
-/

set_option maxRecDepth 20000

abbrev Chars := List Char

/-- One step of Python `str.split(sep)` for a single-character separator:
splits on every occurrence, keeping empty pieces (`"".split(sep) == [""]`). -/
def splitOnChar (sep : Char) : Chars → List Chars
  | [] => [[]]
  | c :: cs =>
    let r := splitOnChar sep cs
    if c = sep then [] :: r
    else
      match r with
      | [] => [[c]]
      | t :: ts => (c :: t) :: ts

/-- Python `s.rsplit(sep, 1)` unpacked into two pieces: splits at the last
occurrence of `sep`; `none` models the `ValueError` raised by unpacking the
one-element result when `sep` does not occur. -/
def rsplitLast (sep : Char) : Chars → Option (Chars × Chars)
  | [] => none
  | c :: cs =>
    match rsplitLast sep cs with
    | some (st, ex) => some (c :: st, ex)
    | none => if c = sep then some ([], cs) else none

/-- Python `s.split(sep, 1)[0]`: the piece before the first occurrence of
`sep` (the whole string when `sep` is absent). -/
def takeUntil (sep : Char) : Chars → Chars
  | [] => []
  | c :: cs => if c = sep then [] else c :: takeUntil sep cs

/-- Value of an ASCII decimal digit. -/
def digitVal? (c : Char) : Option Nat :=
  if '0' ≤ c ∧ c ≤ '9' then some (c.toNat - '0'.toNat) else none

/-- Accumulating parse of a digit run; `none` as soon as a non-digit is hit. -/
def digitsAux : Chars → Nat → Option Nat
  | [], acc => some acc
  | c :: cs, acc =>
    match digitVal? c with
    | some d => digitsAux cs (acc * 10 + d)
    | none => none

/-- Nonempty all-digit string to `Nat`. -/
def digitsToNat? : Chars → Option Nat
  | [] => none
  | c :: cs => digitsAux (c :: cs) 0

/-- Python `int(token)` on the token shapes produced by splitting a filename:
an optional `+`/`-` sign followed by one or more ASCII digits; `none`
models the `ValueError` on anything else. -/
def pyInt? : Chars → Option Int
  | '-' :: rest => (digitsToNat? rest).map (fun n => -(n : Int))
  | '+' :: rest => (digitsToNat? rest).map (fun n => (n : Int))
  | s => (digitsToNat? s).map (fun n => (n : Int))

/-- Python `list.index(x)` restricted to token lists: index of the first
occurrence, `none` models the `ValueError` when absent. -/
def firstIdx? (x : Chars) : List Chars → Option Nat
  | [] => none
  | t :: ts => if t = x then some 0 else (firstIdx? x ts).map (· + 1)

/-- Whether `pre` is a prefix of `s` (character-wise). -/
def charsStart (s pre : Chars) : Bool :=
  match s, pre with
  | _, [] => true
  | [], _ :: _ => false
  | c :: cs, d :: ds => c = d && charsStart cs ds

/-- Python `needle in hay` substring containment on character lists. -/
def hasSubstr (hay needle : Chars) : Bool :=
  match hay with
  | [] => needle.isEmpty
  | _ :: cs => charsStart hay needle || hasSubstr cs needle

/-- Fuel-driven core of `fnmatch.fnmatch` for patterns built from literal
characters, `*` (any run, possibly empty) and `?` (exactly one character);
matching is case-sensitive and anchored to the whole name, exactly the
POSIX behaviour the source relies on (none of its patterns uses `[seq]`). -/
def globMatchFuel : Nat → Chars → Chars → Bool
  | 0, _, _ => false
  | _ + 1, [], s => s.isEmpty
  | f + 1, p :: ps, s =>
    if p = '*' then
      match s with
      | [] => globMatchFuel f ps []
      | _ :: cs => globMatchFuel f ps s || globMatchFuel f (p :: ps) cs
    else
      match s with
      | [] => false
      | c :: cs => (p = '?' || p = c) && globMatchFuel f ps cs

/-- `fnmatch.fnmatch name pat` (argument order: pattern first). -/
def globMatch (pat s : Chars) : Bool :=
  globMatchFuel (pat.length + s.length + 1) pat s

/-- The capture-time group: the six fields `datetime.datetime` was built
from in `parse_datetime`. -/
structure CaptureTime where
  year : Int
  month : Int
  day : Int
  hour : Int
  minute : Int
  second : Int
deriving DecidableEq

/-- Gregorian leap-year test, as `datetime` uses. -/
def isLeapYear (y : Int) : Bool :=
  (y % 4 = 0 && y % 100 ≠ 0) || y % 400 = 0

/-- Days in a month of the proleptic Gregorian calendar. -/
def daysInMonth (y mo : Int) : Int :=
  if mo = 2 then (if isLeapYear y then 29 else 28)
  else if mo = 4 || mo = 6 || mo = 9 || mo = 11 then 30
  else 31

/-- Argument validity of `datetime.datetime(y, mo, d, h, mi, s)`: the
constructor raises `ValueError` exactly when one of these bounds fails. -/
def validDatetime (y mo d h mi s : Int) : Bool :=
  1 ≤ y && y ≤ 9999 && 1 ≤ mo && mo ≤ 12 && 1 ≤ d && d ≤ daysInMonth y mo &&
  0 ≤ h && h < 24 && 0 ≤ mi && mi < 60 && 0 ≤ s && s < 60

/-- The glob the hyperspectral-reference special cases test against. -/
def hsrPat : Chars := "hsr_*.*".data

/-- Tokens of `raw_filename.split(".", 1)[0].split("_")`, the token list
`parse_ordinal` (fallback branch) and `parse_physical_dimensions` rebuild
from the raw filename. -/
def tokensOfFilename (fn : Chars) : List Chars :=
  splitOnChar '_' (takeUntil '.' fn)

/-- `EnviratronFileNameParser.parse_ordinal` (called with no argument): use
`self._ints_list` when truthy, else recompute integer tokens from the raw
filename; `hsr_*.*` filenames take the second integer, everything else the
first; an out-of-range index (`IndexError`) leaves the attribute unset
(`none`). -/
def parse_ordinal (fn : Chars) (intsList : List Int) : Option Int :=
  let ints := if intsList.isEmpty then (tokensOfFilename fn).filterMap pyInt? else intsList
  if globMatch hsrPat fn then ints.get? 1 else ints.get? 0

/-- `EnviratronFileNameParser.parse_chamber_id`: first `/`-segment of the
whole path containing the substring `chamber_`; its last `_`-piece is fed to
`int()`.  Outer `none` models the uncaught `ValueError` when that piece is
not an integer; `some none` is the explicit `self.chamber_id = None`. -/
def parse_chamber_id (pathList : List Chars) : Option (Option Int) :=
  match pathList.find? (fun s => hasSubstr s "chamber_".data) with
  | none => some none
  | some s => (pyInt? ((splitOnChar '_' s).getLastD [])).map some

/-- The integer-token list after the `hsr_*.*` normalisation of
`parse_datetime`: one variation of the hyperspectral-reference naming
convention carries an extra leading numeral that gets pruned. -/
def prunedInts (fn : Chars) (intsList : List Int) : List Int :=
  if globMatch hsrPat fn then intsList.drop 1 else intsList

/-- `EnviratronFileNameParser.parse_datetime`: prune the first integer token
for `hsr_*.*` names, then read positions 1–6 as year, month, day, hour,
minute, second; `IndexError` (too few tokens) and `ValueError` (invalid
calendar values) are both caught, leaving the whole group unset. -/
def parse_datetime (fn : Chars) (intsList : List Int) : Option CaptureTime :=
  let ints := prunedInts fn intsList
  match ints.get? 1, ints.get? 2, ints.get? 3, ints.get? 4, ints.get? 5, ints.get? 6 with
  | some y, some mo, some d, some h, some mi, some s =>
    if validDatetime y mo d h mi s then some ⟨y, mo, d, h, mi, s⟩ else none
  | _, _, _, _, _, _ => none

/-- The ordered `(glob pattern, modality label)` table of
`parse_file_type`, verbatim from the source. -/
def modalityTable : List (Chars × String) :=
  [("*.pcd".data, "point cloud"),
   ("rgb_pose*.yml".data, "rgb pose"),
   ("rgb*.jpg".data, "rgb image"),
   ("PAM*.yml".data, "fluorometer pam"),
   ("ir_*.bin".data, "infrared"),
   ("depth_*.bin".data, "depth"),
   ("depth_pose_*.yml".data, "depth pose"),
   ("?_hs_rd_*.bin".data, "hyperspectral reference dark"),
   ("hsr_*_d_rp_*.bin".data, "hyperspectral reference dark"),
   ("?_hs_rw_*.bin".data, "hyperspectral reference white"),
   ("hsr_*_w_rp_*.bin".data, "hyperspectral reference white"),
   ("hs_*.bin".data, "hyperspectral"),
   ("?_hs_*_pose.csv".data, "hyperspectral pose"),
   ("hsr_*_pose.csv".data, "hyperspectral reference pose"),
   ("hsr_*.csv".data, "hyperspectral csv"),
   ("?_hs_*.csv".data, "hyperspectral csv"),
   ("thermo_pose_*.yml".data, "thermal pose"),
   ("thermo_*.bin".data, "thermal"),
   ("thermo_*.jpg".data, "thermal image")]

/-- `EnviratronFileNameParser.parse_file_type`: evaluate the table
top-to-bottom against `raw_filename.split("/")[-1]`, stopping at the first
match; `None` when nothing matches. -/
def parse_file_type (fn : Chars) : Option String :=
  let f := (splitOnChar '/' fn).getLastD []
  (modalityTable.find? (fun r => globMatch r.1 f)).map (fun r => r.2)

/-- The height/width block of `parse_physical_dimensions` for one marker
token: `len(tokens) - tokens[::-1].index(marker)` is the index after the
last occurrence of `marker`.  `.index` raising `ValueError` (marker absent)
and `int()` raising `ValueError` both hit the `except ValueError` fallback;
the indexing itself raising `IndexError` (marker is the last token) is
uncaught, modelled by the outer `none`. -/
def dimField (tokens : List Chars) (marker : Chars) (fallback : Option Int) :
    Option (Option Int) :=
  match firstIdx? marker tokens.reverse with
  | none => some fallback
  | some r =>
    match tokens.get? (tokens.length - r) with
    | none => none
    | some t =>
      match pyInt? t with
      | some n => some (some n)
      | none => some fallback

/-- Hardcoded height fallbacks of the `except ValueError` branch. -/
def heightFallback (fn : Chars) : Option Int :=
  if globMatch "thermo_*.jpg".data fn then some 480
  else if globMatch "thermo_*.bin".data fn then some 480
  else if globMatch "rgb_*.jpg".data fn then some 1303
  else none

/-- Hardcoded width fallbacks of the `except ValueError` branch. -/
def widthFallback (fn : Chars) : Option Int :=
  if globMatch "thermo_*.jpg".data fn then some 640
  else if globMatch "thermo_*.bin".data fn then some 640
  else if globMatch "rgb_*.jpg".data fn then some 156
  else none

/-- First bands block: for `hs*.bin` / `hs_*.npy` names,
`int(tokens[tokens.index("h") + 1])` with `except ValueError` giving 56; a
missing `"h"` raises `ValueError` from `.index` (caught, 56), a failed
`int()` is caught (56), but an out-of-range `+ 1` raises an uncaught
`IndexError` (outer `none`).  The inner value is the attribute state
(`none` = `bands` not assigned). -/
def bandsStep1 (fn : Chars) (tokens : List Chars) : Option (Option Int) :=
  if globMatch "hs*.bin".data fn || globMatch "hs_*.npy".data fn then
    match firstIdx? "h".data tokens with
    | none => some (some 56)
    | some i =>
      match tokens.get? (i + 1) with
      | none => none
      | some t => some (some ((pyInt? t).getD 56))
  else some none

/-- Second bands block: for `*_hs_r*.bin` names, index after the last `"h"`
with `except IndexError` giving 56; here a missing `"h"` raises an
uncaught `ValueError` from `.index`, and a failed `int()` raises an
uncaught `ValueError` — both modelled by the outer `none`. -/
def bandsStep2 (fn : Chars) (tokens : List Chars) (prev : Option Int) :
    Option (Option Int) :=
  if globMatch "*_hs_r*.bin".data fn then
    match firstIdx? "h".data tokens.reverse with
    | none => none
    | some r =>
      match tokens.get? (tokens.length - r) with
      | none => some (some 56)
      | some t => (pyInt? t).map some
  else some prev

/-- `EnviratronFileNameParser.parse_physical_dimensions` (called with no
argument): outer `none` is any uncaught exception, the triple is the final
`(height, width, bands)` attribute state (`none` = never assigned). -/
def parse_physical_dimensions (fn : Chars) :
    Option (Option Int × Option Int × Option Int) :=
  let tokens := tokensOfFilename fn
  match dimField tokens "f".data (heightFallback fn) with
  | none => none
  | some hres =>
    match dimField tokens "w".data (widthFallback fn) with
    | none => none
    | some wres =>
      match bandsStep1 fn tokens with
      | none => none
      | some b1 =>
        match bandsStep2 fn tokens b1 with
        | none => none
        | some bres => some (hres, wres, bres)

/-- The attribute state of a fully constructed `EnviratronFileNameParser`.
A field whose value can be "attribute never assigned" (ordinal, second,
height, width, bands) uses `none` for that absent state; a field the code
explicitly sets to `None` (chamber_id, type, year, …) uses `none` for that
null value — `as_dict_keys` below records which of the two it is. -/
structure FileMetadata where
  raw_filepath : String
  raw_filename : Chars
  file_extension : Chars
  ints_list : List Int
  ordinal : Option Int
  chamber_id : Option Int
  year : Option Int
  month : Option Int
  day : Option Int
  hour : Option Int
  minute : Option Int
  second : Option Int
  type : Option String
  height : Option Int
  width : Option Int
  bands : Option Int
deriving DecidableEq

/-- Path segments `raw_filepath.split("/")`. -/
def pathSegments (p : String) : List Chars := splitOnChar '/' p.data

/-- `path_list[-1]`, the filename-with-extension segment. -/
def rawFilename (p : String) : Chars := (pathSegments p).getLastD []

/-- `self._ints_list`: the tokens of the extension-stripped filename that
survive `int()`. -/
def intsOfStem (stem : Chars) : List Int :=
  (splitOnChar '_' stem).filterMap pyInt?

/-- Assembly of the attribute record once the fallible stages have
produced their values (the tail end of `__init__`). -/
def mkMeta (p : String) (stem ext : Chars) (cid : Option Int)
    (hres wres bres : Option Int) : FileMetadata :=
  let ints := intsOfStem stem
  let dt := parse_datetime (rawFilename p) ints
  { raw_filepath := p
    raw_filename := rawFilename p
    file_extension := ext
    ints_list := ints
    ordinal := parse_ordinal (rawFilename p) ints
    chamber_id := cid
    year := dt.map (·.year)
    month := dt.map (·.month)
    day := dt.map (·.day)
    hour := dt.map (·.hour)
    minute := dt.map (·.minute)
    second := dt.map (·.second)
    type := parse_file_type (rawFilename p)
    height := hres
    width := wres
    bands := bres }

/-- `EnviratronFileNameParser.__init__(path)`: the whole parse.  `none`
models the constructor raising (dotless filename, uncaught `ValueError` in
`parse_chamber_id`, uncaught `IndexError`/`ValueError` in
`parse_physical_dimensions`); `some m` is the constructed object. -/
def parseEnviratron (p : String) : Option FileMetadata :=
  match rsplitLast '.' (rawFilename p) with
  | none => none
  | some (stem, ext) =>
    match parse_chamber_id (pathSegments p) with
    | none => none
    | some cid =>
      match parse_physical_dimensions (rawFilename p) with
      | none => none
      | some (hres, wres, bres) => some (mkMeta p stem ext cid hres wres bres)

/-- The key list of `as_dict()` / `self.__dict__`, in assignment order: an
attribute the code assigns unconditionally (including the explicit `None`
initialisations, and `seconds` which is initialised to `None` and never
reassigned — the success path writes `second` instead) is always a key;
`ordinal`, `second`, `height`, `width` and `bands` are keys only when their
assignment actually executed. -/
def as_dict_keys (m : FileMetadata) : List String :=
  ["raw_filepath", "type", "raw_filename", "file_extension", "_ints_list"]
  ++ (if m.ordinal.isSome then ["ordinal"] else [])
  ++ ["chamber_id", "datetime", "year", "month", "day", "hour", "minute", "seconds"]
  ++ (if m.second.isSome then ["second"] else [])
  ++ (if m.height.isSome then ["height"] else [])
  ++ (if m.width.isSome then ["width"] else [])
  ++ (if m.bands.isSome then ["bands"] else [])

/-- The resolution rule `parse_chamber_id` actually implements, stated
over the full segment list of the path — filename segment included (the
spec claims the filename is never inspected; this definition is the
amended description the code satisfies). -/
def chamberFromSegments (segs : List Chars) : Option Int :=
  (segs.find? (fun s => hasSubstr s "chamber_".data)).bind
    (fun s => pyInt? ((splitOnChar '_' s).getLastD []))

/-- `BAND_COUNT` from `load_hyperspectral_numpy_data`: the hardcoded row
count of the reshape. -/
def BAND_COUNT : Nat := 56

/-- Row-major chunking of a flat vector into `r` rows of `cols` entries. -/
def chunkRows : Nat → Nat → List ℚ → List (List ℚ)
  | 0, _, _ => []
  | r + 1, cols, data => data.take cols :: chunkRows r cols (data.drop cols)

/-- `np.reshape(arr, (rows, cols))`: succeeds iff the total size matches
(`cols` kept as `Int` because the source computes it as `height * width`
from parsed, possibly signed, integers; a negative product can never equal
the nonnegative array length, matching numpy's `ValueError`). -/
def np_reshape (data : List ℚ) (rows : Nat) (cols : Int) :
    Option (List (List ℚ)) :=
  if (data.length : Int) = rows * cols then some (chunkRows rows cols.toNat data)
  else none

/-- `load_hyperspectral_numpy_data(path)` with the loaded flat array made
explicit: parse the path, then reshape to `(BAND_COUNT, height * width)`
— the row count is the hardcoded constant, not the metadata's `bands`.
`none` models any exception: the parser raising, `input_meta.width`/
`.height` missing (`AttributeError`), or the reshape failing. -/
def load_hyperspectral_numpy_data (data : List ℚ) (path : String) :
    Option (List (List ℚ)) :=
  match parseEnviratron path with
  | none => none
  | some meta =>
    match meta.height, meta.width with
    | some h, some w => np_reshape data BAND_COUNT (h * w)
    | _, _ => none

/-- Element/index pairs `(l[i], i)` starting at index `n`. -/
def withIdx : List ℚ → Nat → List (ℚ × Nat)
  | [], _ => []
  | x :: xs, n => (x, n) :: withIdx xs (n + 1)

/-- Ordered insertion by value, used to model `np.argsort` (ascending). -/
def insertPair (v : ℚ × Nat) : List (ℚ × Nat) → List (ℚ × Nat)
  | [] => [v]
  | w :: ws => if v.1 < w.1 then v :: w :: ws else w :: insertPair v ws

/-- Insertion sort of value/index pairs by value. -/
def sortPairs : List (ℚ × Nat) → List (ℚ × Nat)
  | [] => []
  | v :: vs => insertPair v (sortPairs vs)

/-- `np.argsort(l)`: the original indices listed in ascending order of
their values (exact for pairwise-distinct values; numpy's default
quicksort leaves the order of tied values unspecified, which this model
fixes deterministically). -/
def npArgsort (l : List ℚ) : List Nat :=
  (sortPairs (withIdx l 0)).map (fun v => v.2)

/-- The band choice of `main`:
`np.argsort(std_deviation)[len(std_deviation) // 2]`. -/
def median_band_index (stds : List ℚ) : Option Nat :=
  (npArgsort stds).get? (stds.length / 2)

/-- `data_by_band[median_std_deviation_index]`: the row of the reshaped
data selected by the median-ranked dispersion value. -/
def selectMedianBand (rows : List (List ℚ)) (stds : List ℚ) :
    Option (List ℚ) :=
  (median_band_index stds).bind (fun i => rows.get? i)

/-- A flat array with exactly `bands * height * width` entries for a file
whose metadata reports 7 bands, height 1, width 2 (used to exhibit the
hardcoded-56 reshape). -/
def smallFlatData : List ℚ := List.replicate 14 0

/-- C1: the tokenizer step `filename.rsplit(".", 1)` of `__init__` yields a
single element for a dotless final segment, so unpacking it into
`(filename_without_extension, extension)` raises `ValueError`: the parser
crashes instead of degrading to "whole name as stem, empty extension". -/
theorem dotlessFilenameRaises :
    (rawFilename "hs_data").contains '.' = false ∧
    parseEnviratron "hs_data" = none := by
  decide

/-- C5: the worked example
`hsr_m_0_d_rp_2_2018_8_17_9_40_58_63_f_30_w_1024_h_56.bin` parses to
ordinal 2 (second integer token, hsr rule), capture time
2018-08-17T09:40:58, height 30, width 1024 and modality
"hyperspectral reference dark". -/
theorem hsrExampleFields :
    (parseEnviratron "hsr_m_0_d_rp_2_2018_8_17_9_40_58_63_f_30_w_1024_h_56.bin").map
        (fun m => (m.ordinal, m.year, m.month, m.day)) =
      some (some 2, some 2018, some 8, some 17) ∧
    (parseEnviratron "hsr_m_0_d_rp_2_2018_8_17_9_40_58_63_f_30_w_1024_h_56.bin").map
        (fun m => (m.hour, m.minute, m.second)) =
      some (some 9, some 40, some 58) ∧
    (parseEnviratron "hsr_m_0_d_rp_2_2018_8_17_9_40_58_63_f_30_w_1024_h_56.bin").map
        (fun m => (m.height, m.width)) = some (some 30, some 1024) ∧
    (parseEnviratron "hsr_m_0_d_rp_2_2018_8_17_9_40_58_63_f_30_w_1024_h_56.bin").map
        (fun m => m.type) = some (some "hyperspectral reference dark") := by
  refine ⟨by decide, by decide, by decide, by decide⟩

/-- C2 counterexample: in `data/x_chamber_y.bin_5` the only segment
containing `chamber_` is the final filename segment, yet `parse_chamber_id`
scans the full `split("/")` list and sets `chamber_id = 5` from it — the
claim says it would stay unset. -/
theorem chamberIdReadFromFilenameSegment :
    (parseEnviratron "data/x_chamber_y.bin_5").map (fun m => m.chamber_id) =
      some (some 5) := by
  decide

/-- C3 counterexample: `x_hs_r_q.bin` matches `*_hs_r*.bin` and its token
list has no literal `"h"` token, so `filename_list[::-1].index("h")` raises
`ValueError`, which the surrounding `except IndexError` does not catch: the
parser crashes, instead of defaulting `bands` to 56 as the claim states for
the absent-token case. -/
theorem hsRefBandsMissingMarkerRaises :
    globMatch "*_hs_r*.bin".data "x_hs_r_q.bin".data = true ∧
    parseEnviratron "x_hs_r_q.bin" = none := by
  decide

/-- C4 counterexample: in `thermo_x_f.jpg` the token `"f"` is the last
token, so `filename_list[height_index]` raises an uncaught `IndexError`:
the parser crashes, instead of falling back to height 480 as the claim
states for the invalid-index case. -/
theorem heightMarkerLastRaises :
    globMatch "thermo_*.jpg".data "thermo_x_f.jpg".data = true ∧
    parseEnviratron "thermo_x_f.jpg" = none := by
  decide

/-- C9 counterexample: for `hs_1_2018_1_1_1_1_1_f_1_w_2_h_7.npy` the
metadata reports 7 bands, height 1, width 2; a flat array of exactly
`bands * height * width = 14` entries reshapes fine into `bands` rows (as
the claim describes), yet `load_hyperspectral_numpy_data` raises, because
it reshapes with the hardcoded `BAND_COUNT = 56` instead of the metadata's
band count. -/
theorem reshapeUsesHardcodedBandCount :
    (parseEnviratron "hs_1_2018_1_1_1_1_1_f_1_w_2_h_7.npy").map
        (fun m => (m.bands, m.height, m.width)) = some (some 7, some 1, some 2) ∧
    smallFlatData.length = 7 * (1 * 2) ∧
    (np_reshape smallFlatData 7 (1 * 2)).isSome = true ∧
    load_hyperspectral_numpy_data smallFlatData "hs_1_2018_1_1_1_1_1_f_1_w_2_h_7.npy"
      = none := by
  refine ⟨by decide, by decide, by decide, by decide⟩

/-- Splitting a string that does not contain the separator is the identity
(one piece). -/
theorem splitOnChar_of_not_mem (sep : Char) :
    ∀ s : Chars, sep ∉ s → splitOnChar sep s = [s] := by
  intro s
  induction s with
  | nil => intro _; rfl
  | cons c cs ih =>
    intro h
    have hc : ¬ c = sep := fun hc => h (hc ▸ List.mem_cons_self c cs)
    have hcs : sep ∉ cs := fun hm => h (List.mem_cons_of_mem c hm)
    simp only [splitOnChar, if_neg hc, ih hcs]

/-- `rsplit(sep, 1)` on a string without the separator yields a single
piece, so the two-variable unpacking in `__init__` raises. -/
theorem rsplitLast_of_not_mem (sep : Char) :
    ∀ s : Chars, sep ∉ s → rsplitLast sep s = none := by
  intro s
  induction s with
  | nil => intro _; rfl
  | cons c cs ih =>
    intro h
    have hc : ¬ c = sep := fun hc => h (hc ▸ List.mem_cons_self c cs)
    have hcs : sep ∉ cs := fun hm => h (List.mem_cons_of_mem c hm)
    simp only [rsplitLast, ih hcs, if_neg hc]

/-- Inversion of a successful parse into its three fallible stages. -/
theorem parseEnviratron_inv {p : String} {m : FileMetadata}
    (h : parseEnviratron p = some m) :
    ∃ stem ext cid hres wres bres,
      rsplitLast '.' (rawFilename p) = some (stem, ext) ∧
      parse_chamber_id (pathSegments p) = some cid ∧
      parse_physical_dimensions (rawFilename p) = some (hres, wres, bres) ∧
      m = mkMeta p stem ext cid hres wres bres := by
  unfold parseEnviratron at h
  cases h1 : rsplitLast '.' (rawFilename p) with
  | none => rw [h1] at h; exact absurd h (by simp)
  | some se =>
    obtain ⟨stem, ext⟩ := se
    rw [h1] at h
    cases h2 : parse_chamber_id (pathSegments p) with
    | none => rw [h2] at h; exact absurd h (by simp)
    | some cid =>
      rw [h2] at h
      cases h3 : parse_physical_dimensions (rawFilename p) with
      | none => rw [h3] at h; exact absurd h (by simp)
      | some t =>
        obtain ⟨hres, wres, bres⟩ := t
        rw [h3] at h
        simp only [Option.some_inj] at h
        exact ⟨stem, ext, cid, hres, wres, bres, rfl, rfl, rfl, h.symm⟩

/-- The `chamber_id` attribute of the assembled record is the value the
chamber stage produced. -/
theorem mkMeta_chamber_id (p : String) (stem ext : Chars) (cid : Option Int)
    (hres wres bres : Option Int) :
    (mkMeta p stem ext cid hres wres bres).chamber_id = cid := rfl

/-- A successful `parse_chamber_id` returns exactly the value described by
`chamberFromSegments`. -/
theorem parse_chamber_id_some {segs : List Chars} {cid : Option Int}
    (h : parse_chamber_id segs = some cid) :
    cid = chamberFromSegments segs := by
  unfold parse_chamber_id at h
  unfold chamberFromSegments
  cases hf : segs.find? (fun s => hasSubstr s "chamber_".data) with
  | none =>
    simp only [hf, Option.some_inj] at h
    exact h.symm
  | some s =>
    simp only [hf] at h
    show cid = pyInt? ((splitOnChar '_' s).getLastD [])
    cases hp : pyInt? ((splitOnChar '_' s).getLastD []) with
    | none =>
      rw [hp] at h
      exact Option.noConfusion h
    | some n =>
      rw [hp] at h
      simp only [Option.map_some', Option.some_inj] at h
      exact h.symm

/-- C2 (amended): `chamber_id` comes from the first `/`-segment of the
whole path — the final filename segment included — that contains the
substring `chamber_`, by parsing the last `_`-piece of that segment as an
integer; it is unset only when no segment at all matches (a matching
segment whose last piece is not an integer makes the parser raise, so no
record exists in that case). -/
theorem chamberIdScansAllSegments :
    ∀ (p : String) (m : FileMetadata), parseEnviratron p = some m →
      m.chamber_id = chamberFromSegments (pathSegments p) := by
  intro p m h
  obtain ⟨stem, ext, cid, hres, wres, bres, _, h2, _, hm⟩ := parseEnviratron_inv h
  rw [hm, mkMeta_chamber_id]
  exact parse_chamber_id_some h2

/-- Witness for `chamberIdScansAllSegments` at the concrete path
`a/chamber_7/x.y`: the parse succeeds and yields `chamber_id = 7`. -/
theorem chamberIdScansAllSegmentsWitness :
    (parseEnviratron "a/chamber_7/x.y").map FileMetadata.chamber_id =
      some (chamberFromSegments (pathSegments "a/chamber_7/x.y")) ∧
    chamberFromSegments (pathSegments "a/chamber_7/x.y") = some 7 := by
  have h : (parseEnviratron "a/chamber_7/x.y").isSome = true := by decide
  obtain ⟨m, hm⟩ := Option.isSome_iff_exists.mp h
  refine ⟨?_, by decide⟩
  rw [hm, Option.map_some', chamberIdScansAllSegments "a/chamber_7/x.y" m hm]

/-- C8: the parse is a pure function of the path string — the embedding of
`__init__` holds no global state, counters, or clock, so two parse calls
on equal path strings yield bit-identical records. -/
theorem parseDeterministic :
    ∀ p q : String, p = q → parseEnviratron p = parseEnviratron q := by
  intro p q h
  rw [h]

/-- Witness for `parseDeterministic` at a concrete path: the two calls
agree. -/
theorem parseDeterministicWitness :
    parseEnviratron "thermo_pose_1_2018_1_1_1_1_1_2.yml" =
      parseEnviratron "thermo_pose_1_2018_1_1_1_1_1_2.yml" :=
  parseDeterministic "thermo_pose_1_2018_1_1_1_1_1_2.yml"
    "thermo_pose_1_2018_1_1_1_1_1_2.yml" rfl

/-- A successful `parse_datetime` drew each of its six fields from integer
positions 1–6 of the (possibly pruned) list and passed the calendar
validity check of `datetime.datetime`. -/
theorem parse_datetime_some {fn : Chars} {ints : List Int} {t : CaptureTime}
    (h : parse_datetime fn ints = some t) :
    (prunedInts fn ints).get? 1 = some t.year ∧
    (prunedInts fn ints).get? 2 = some t.month ∧
    (prunedInts fn ints).get? 3 = some t.day ∧
    (prunedInts fn ints).get? 4 = some t.hour ∧
    (prunedInts fn ints).get? 5 = some t.minute ∧
    (prunedInts fn ints).get? 6 = some t.second ∧
    validDatetime t.year t.month t.day t.hour t.minute t.second = true := by
  simp only [parse_datetime] at h
  split at h
  · split at h
    · rename_i y mo d hh mi s h1 h2 h3 h4 h5 h6 hv
      obtain rfl : t = ⟨y, mo, d, hh, mi, s⟩ := (Option.some_inj.mp h).symm
      exact ⟨h1, h2, h3, h4, h5, h6, hv⟩
    · exact Option.noConfusion h
  · exact Option.noConfusion h

/-- The six capture-time attributes of the assembled record are the joint
projections of the `parse_datetime` result. -/
theorem mkMeta_capture (p : String) (stem ext : Chars) (cid : Option Int)
    (hres wres bres : Option Int) :
    (mkMeta p stem ext cid hres wres bres).year =
      (parse_datetime (rawFilename p) (intsOfStem stem)).map (·.year) ∧
    (mkMeta p stem ext cid hres wres bres).month =
      (parse_datetime (rawFilename p) (intsOfStem stem)).map (·.month) ∧
    (mkMeta p stem ext cid hres wres bres).day =
      (parse_datetime (rawFilename p) (intsOfStem stem)).map (·.day) ∧
    (mkMeta p stem ext cid hres wres bres).hour =
      (parse_datetime (rawFilename p) (intsOfStem stem)).map (·.hour) ∧
    (mkMeta p stem ext cid hres wres bres).minute =
      (parse_datetime (rawFilename p) (intsOfStem stem)).map (·.minute) ∧
    (mkMeta p stem ext cid hres wres bres).second =
      (parse_datetime (rawFilename p) (intsOfStem stem)).map (·.second) :=
  ⟨rfl, rfl, rfl, rfl, rfl, rfl⟩

/-- C7: the capture-time group is atomic — for every successful parse,
either all of year, month, day, hour, minute and second are set from a
calendar-valid sextuple read off integer positions 1–6 of the
(hsr-pruned) token list, or every one of them is unset; and a failing
datetime never aborts the parse (the record still exists). -/
theorem captureTimeAtomic :
    ∀ (p : String) (m : FileMetadata), parseEnviratron p = some m →
      ∃ stem ext, rsplitLast '.' (rawFilename p) = some (stem, ext) ∧
        ((∃ t : CaptureTime,
            parse_datetime (rawFilename p) (intsOfStem stem) = some t ∧
            (prunedInts (rawFilename p) (intsOfStem stem)).get? 1 = some t.year ∧
            (prunedInts (rawFilename p) (intsOfStem stem)).get? 2 = some t.month ∧
            (prunedInts (rawFilename p) (intsOfStem stem)).get? 3 = some t.day ∧
            (prunedInts (rawFilename p) (intsOfStem stem)).get? 4 = some t.hour ∧
            (prunedInts (rawFilename p) (intsOfStem stem)).get? 5 = some t.minute ∧
            (prunedInts (rawFilename p) (intsOfStem stem)).get? 6 = some t.second ∧
            validDatetime t.year t.month t.day t.hour t.minute t.second = true ∧
            m.year = some t.year ∧ m.month = some t.month ∧ m.day = some t.day ∧
            m.hour = some t.hour ∧ m.minute = some t.minute ∧
            m.second = some t.second) ∨
          (parse_datetime (rawFilename p) (intsOfStem stem) = none ∧
            m.year = none ∧ m.month = none ∧ m.day = none ∧
            m.hour = none ∧ m.minute = none ∧ m.second = none)) := by
  intro p m h
  obtain ⟨stem, ext, cid, hres, wres, bres, h1, _, _, hm⟩ := parseEnviratron_inv h
  refine ⟨stem, ext, h1, ?_⟩
  obtain ⟨hy, hmo, hd, hh, hmi, hs⟩ := mkMeta_capture p stem ext cid hres wres bres
  cases hdt : parse_datetime (rawFilename p) (intsOfStem stem) with
  | none =>
    right
    rw [hm, hy, hmo, hd, hh, hmi, hs, hdt]
    exact ⟨rfl, rfl, rfl, rfl, rfl, rfl, rfl⟩
  | some t =>
    left
    obtain ⟨g1, g2, g3, g4, g5, g6, gv⟩ := parse_datetime_some hdt
    subst hm
    rw [hy, hmo, hd, hh, hmi, hs, hdt]
    simp only [Option.map_some']
    exact ⟨t, rfl, g1, g2, g3, g4, g5, g6, gv, rfl, rfl, rfl, rfl, rfl, rfl⟩

/-- Witness for `captureTimeAtomic` at
`thermo_pose_7_2018_8_10_9_0_34_883.yml` (capture time set). -/
theorem captureTimeAtomicWitness :
    (parseEnviratron "thermo_pose_7_2018_8_10_9_0_34_883.yml").map
        (fun x => (x.year, x.month, x.day)) = some (some 2018, some 8, some 10) ∧
    (parseEnviratron "thermo_pose_7_2018_8_10_9_0_34_883.yml").map
        (fun x => (x.hour, x.minute, x.second)) = some (some 9, some 0, some 34) := by
  have h : (parseEnviratron "thermo_pose_7_2018_8_10_9_0_34_883.yml").isSome = true := by
    decide
  obtain ⟨m, hm⟩ := Option.isSome_iff_exists.mp h
  have hatomic := captureTimeAtomic "thermo_pose_7_2018_8_10_9_0_34_883.yml" m hm
  exact ⟨by decide, by decide⟩

/-- If position `i` satisfies the predicate and every earlier position
does not, `find?` returns exactly the element at `i`. -/
theorem find?_first {α : Type} (p : α → Bool) :
    ∀ (l : List α) (i : Nat) (x : α), l.get? i = some x → p x = true →
      (l.take i).all (fun y => !(p y)) = true → l.find? p = some x := by
  intro l
  induction l with
  | nil => intro i x hg _ _; simp at hg
  | cons a as ih =>
    intro i x hg hp hall
    cases i with
    | zero =>
      simp only [List.get?] at hg
      obtain rfl : a = x := Option.some_inj.mp hg
      exact List.find?_cons_of_pos as hp
    | succ n =>
      simp only [List.take, List.all_cons, Bool.and_eq_true, Bool.not_eq_true'] at hall
      rw [List.find?_cons_of_neg as (by rw [hall.1]; exact Bool.false_ne_true)]
      exact ih n x hg hp hall.2

/-- If no element satisfies the predicate, `find?` returns nothing. -/
theorem find?_none_of_all {α : Type} (p : α → Bool) :
    ∀ l : List α, l.all (fun y => !(p y)) = true → l.find? p = none := by
  intro l
  induction l with
  | nil => intro _; rfl
  | cons a as ih =>
    intro hall
    simp only [List.all_cons, Bool.and_eq_true, Bool.not_eq_true'] at hall
    rw [List.find?_cons_of_neg as (by rw [hall.1]; exact Bool.false_ne_true)]
    exact ih hall.2

/-- C6: the modality classifier is first-match-wins over the fixed ordered
19-entry glob table, evaluated against the filename only: if the entry at
position `i` matches and no earlier entry does, the result is exactly that
entry's label, and when no entry at all matches the modality is unset. -/
theorem modalityFirstMatchWins :
    modalityTable.length = 19 ∧
    (∀ (fn : Chars) (i : Nat) (pat : Chars) (lab : String), '/' ∉ fn →
      modalityTable.get? i = some (pat, lab) →
      globMatch pat fn = true →
      (modalityTable.take i).all (fun r => !(globMatch r.1 fn)) = true →
      parse_file_type fn = some lab) ∧
    (∀ fn : Chars, '/' ∉ fn →
      modalityTable.all (fun r => !(globMatch r.1 fn)) = true →
      parse_file_type fn = none) := by
  refine ⟨rfl, ?_, ?_⟩
  · intro fn i pat lab hns hget hmatch hearlier
    unfold parse_file_type
    rw [splitOnChar_of_not_mem '/' fn hns]
    have hl : ([fn] : List Chars).getLastD [] = fn := rfl
    simp only [hl]
    have hfind := find?_first (fun r : Chars × String => globMatch r.1 fn)
      modalityTable i (pat, lab) hget hmatch hearlier
    rw [hfind]
    rfl
  · intro fn hns hall
    unfold parse_file_type
    rw [splitOnChar_of_not_mem '/' fn hns]
    have hl : ([fn] : List Chars).getLastD [] = fn := rfl
    simp only [hl]
    have hfind := find?_none_of_all (fun r : Chars × String => globMatch r.1 fn)
      modalityTable hall
    rw [hfind]
    rfl

/-- Witness for `modalityFirstMatchWins`: `hsr_1_pose.csv` matches both
`hsr_*_pose.csv` (position 13) and the later `hsr_*.csv` (position 14);
table order resolves it to "hyperspectral reference pose". -/
theorem modalityFirstMatchWinsWitness :
    parse_file_type "hsr_1_pose.csv".data = some "hyperspectral reference pose" ∧
    globMatch "hsr_*.csv".data "hsr_1_pose.csv".data = true := by
  constructor
  · exact modalityFirstMatchWins.2.1 "hsr_1_pose.csv".data 13
      "hsr_*_pose.csv".data "hyperspectral reference pose"
      (by decide) (by decide) (by decide) (by decide)
  · decide

/-- A found index is within the list. -/
theorem firstIdx?_lt_length {x : Chars} :
    ∀ {l : List Chars} {i : Nat}, firstIdx? x l = some i → i < l.length := by
  intro l
  induction l with
  | nil => intro i h; exact Option.noConfusion h
  | cons t ts ih =>
    intro i h
    unfold firstIdx? at h
    by_cases ht : t = x
    · rw [if_pos ht] at h
      obtain rfl : (0 : Nat) = i := Option.some_inj.mp h
      exact Nat.succ_pos ts.length
    · rw [if_neg ht] at h
      cases hr : firstIdx? x ts with
      | none => rw [hr] at h; exact Option.noConfusion h
      | some j =>
        rw [hr] at h
        simp only [Option.map_some', Option.some_inj] at h
        subst h
        exact Nat.succ_lt_succ (ih hr)

/-- Inversion of a successful `parse_physical_dimensions` into its four
fallible stages. -/
theorem ppd_inv {fn : Chars} {hres wres bres : Option Int}
    (h : parse_physical_dimensions fn = some (hres, wres, bres)) :
    dimField (tokensOfFilename fn) "f".data (heightFallback fn) = some hres ∧
    dimField (tokensOfFilename fn) "w".data (widthFallback fn) = some wres ∧
    ∃ b1, bandsStep1 fn (tokensOfFilename fn) = some b1 ∧
      bandsStep2 fn (tokensOfFilename fn) b1 = some bres := by
  simp only [parse_physical_dimensions] at h
  cases h1 : dimField (tokensOfFilename fn) "f".data (heightFallback fn) with
  | none => simp [h1] at h
  | some hv =>
    simp only [h1] at h
    cases h2 : dimField (tokensOfFilename fn) "w".data (widthFallback fn) with
    | none => simp [h2] at h
    | some wv =>
      simp only [h2] at h
      cases h3 : bandsStep1 fn (tokensOfFilename fn) with
      | none => simp [h3] at h
      | some b1 =>
        simp only [h3] at h
        cases h4 : bandsStep2 fn (tokensOfFilename fn) b1 with
        | none => simp [h4] at h
        | some bv =>
          simp only [h4, Option.some_inj, Prod.mk.injEq] at h
          obtain ⟨hh, hw, hb⟩ := h
          refine ⟨congrArg some hh, congrArg some hw, b1, rfl, ?_⟩
          rw [← hb]
          exact h4

/-- C4 (amended): height/width extraction falls back to the hardcoded
per-pattern constants when the marker token is absent or when the token
after the last marker fails to parse as an integer (both `ValueError`),
with constants 480/640 for `thermo_*.jpg` and `thermo_*.bin` and 1303/156
for `rgb_*.jpg`; but when the marker is the *last* token the index
computation walks off the list and the uncaught `IndexError` crashes the
parser instead of falling back. -/
theorem dimensionFallbackRules :
    (∀ (fn : Chars) (hres wres bres : Option Int),
       parse_physical_dimensions fn = some (hres, wres, bres) →
       (firstIdx? "f".data (tokensOfFilename fn).reverse = none →
          hres = heightFallback fn) ∧
       (firstIdx? "w".data (tokensOfFilename fn).reverse = none →
          wres = widthFallback fn) ∧
       (∀ (r : Nat) (t : Chars),
          firstIdx? "f".data (tokensOfFilename fn).reverse = some r →
          (tokensOfFilename fn).get? ((tokensOfFilename fn).length - r) = some t →
          pyInt? t = none → hres = heightFallback fn) ∧
       (∀ (r : Nat) (t : Chars),
          firstIdx? "w".data (tokensOfFilename fn).reverse = some r →
          (tokensOfFilename fn).get? ((tokensOfFilename fn).length - r) = some t →
          pyInt? t = none → wres = widthFallback fn)) ∧
    (∀ fn : Chars, firstIdx? "f".data (tokensOfFilename fn).reverse = some 0 →
       parse_physical_dimensions fn = none) ∧
    (∀ fn : Chars, firstIdx? "w".data (tokensOfFilename fn).reverse = some 0 →
       parse_physical_dimensions fn = none) ∧
    (∀ fn : Chars, globMatch "thermo_*.jpg".data fn = true →
       heightFallback fn = some 480 ∧ widthFallback fn = some 640) ∧
    (∀ fn : Chars, globMatch "thermo_*.jpg".data fn = false →
       globMatch "thermo_*.bin".data fn = true →
       heightFallback fn = some 480 ∧ widthFallback fn = some 640) ∧
    (∀ fn : Chars, globMatch "thermo_*.jpg".data fn = false →
       globMatch "thermo_*.bin".data fn = false →
       globMatch "rgb_*.jpg".data fn = true →
       heightFallback fn = some 1303 ∧ widthFallback fn = some 156) := by
  refine ⟨?_, ?_, ?_, ?_, ?_, ?_⟩
  · intro fn hres wres bres hppd
    obtain ⟨h1, h2, _⟩ := ppd_inv hppd
    refine ⟨?_, ?_, ?_, ?_⟩
    · intro hf
      simp only [dimField, hf] at h1
      exact (Option.some_inj.mp h1).symm
    · intro hw
      simp only [dimField, hw] at h2
      exact (Option.some_inj.mp h2).symm
    · intro r t hr hget hp
      simp only [dimField, hr, hget, hp] at h1
      exact (Option.some_inj.mp h1).symm
    · intro r t hr hget hp
      simp only [dimField, hr, hget, hp] at h2
      exact (Option.some_inj.mp h2).symm
  · intro fn hr0
    have hnone : (tokensOfFilename fn).get? (tokensOfFilename fn).length = none :=
      List.get?_eq_none.mpr (Nat.le_refl _)
    have hd : dimField (tokensOfFilename fn) "f".data (heightFallback fn) = none := by
      simp only [dimField, hr0, Nat.sub_zero, hnone]
    simp [parse_physical_dimensions, hd]
  · intro fn hr0
    have hnone : (tokensOfFilename fn).get? (tokensOfFilename fn).length = none :=
      List.get?_eq_none.mpr (Nat.le_refl _)
    have hd : dimField (tokensOfFilename fn) "w".data (widthFallback fn) = none := by
      simp only [dimField, hr0, Nat.sub_zero, hnone]
    cases hdf : dimField (tokensOfFilename fn) "f".data (heightFallback fn) with
    | none => simp [parse_physical_dimensions, hdf]
    | some hv => simp [parse_physical_dimensions, hdf, hd]
  · intro fn hj
    constructor <;> simp [heightFallback, widthFallback, hj]
  · intro fn hj hb
    constructor <;> simp [heightFallback, widthFallback, hj, hb]
  · intro fn hj hb hr
    constructor <;> simp [heightFallback, widthFallback, hj, hb, hr]

/-- Witness for `dimensionFallbackRules` at `thermo_640x480.jpg`: no `f`
or `w` token, so both dimensions come from the thermo-jpg fallback. -/
theorem dimensionFallbackRulesWitness :
    parse_physical_dimensions "thermo_640x480.jpg".data =
      some (some 480, some 640, none) ∧
    (some 480 : Option Int) = heightFallback "thermo_640x480.jpg".data ∧
    (some 640 : Option Int) = widthFallback "thermo_640x480.jpg".data ∧
    heightFallback "thermo_640x480.jpg".data = some 480 ∧
    widthFallback "thermo_640x480.jpg".data = some 640 := by
  have hppd : parse_physical_dimensions "thermo_640x480.jpg".data =
      some (some 480, some 640, none) := by decide
  obtain ⟨ha, hb, _, _⟩ :=
    dimensionFallbackRules.1 "thermo_640x480.jpg".data (some 480) (some 640) none hppd
  obtain ⟨hc, hd⟩ :=
    dimensionFallbackRules.2.2.2.1 "thermo_640x480.jpg".data (by decide)
  exact ⟨hppd, ha (by decide), hb (by decide), hc, hd⟩

/-- C3 (amended): for `hs*.bin` / `hs_*.npy` names (outside the
`*_hs_r*.bin` special case) bands comes from the token after the *first*
`"h"`, with 56 both when `"h"` is absent and when the following token
fails to parse (both are caught `ValueError`s — though a trailing `"h"`
raises an uncaught `IndexError`, see the crash clauses); for `*_hs_r*.bin`
names bands comes from the token after the *last* `"h"`, the 56 default
fires only when that index walks off the end (`"h"` is the last token,
caught `IndexError`), and an absent `"h"` or a failed parse raises an
uncaught `ValueError`, crashing the parser instead of defaulting. -/
theorem bandsExtractionRules :
    (∀ (fn : Chars) (hres wres bres : Option Int),
       parse_physical_dimensions fn = some (hres, wres, bres) →
       (globMatch "hs*.bin".data fn || globMatch "hs_*.npy".data fn) = true →
       globMatch "*_hs_r*.bin".data fn = false →
       (firstIdx? "h".data (tokensOfFilename fn) = none → bres = some 56) ∧
       (∀ (i : Nat) (t : Chars), firstIdx? "h".data (tokensOfFilename fn) = some i →
          (tokensOfFilename fn).get? (i + 1) = some t →
          bres = some ((pyInt? t).getD 56))) ∧
    (∀ (fn : Chars) (hres wres bres : Option Int),
       parse_physical_dimensions fn = some (hres, wres, bres) →
       globMatch "*_hs_r*.bin".data fn = true →
       ∃ r, firstIdx? "h".data (tokensOfFilename fn).reverse = some r ∧
         ((r = 0 ∧ bres = some 56) ∨
          ∃ t n, (tokensOfFilename fn).get? ((tokensOfFilename fn).length - r) = some t ∧
            pyInt? t = some n ∧ bres = some n)) ∧
    (∀ fn : Chars, globMatch "*_hs_r*.bin".data fn = true →
       firstIdx? "h".data (tokensOfFilename fn).reverse = none →
       parse_physical_dimensions fn = none) ∧
    (∀ (fn : Chars) (i : Nat),
       (globMatch "hs*.bin".data fn || globMatch "hs_*.npy".data fn) = true →
       firstIdx? "h".data (tokensOfFilename fn) = some i →
       (tokensOfFilename fn).get? (i + 1) = none →
       parse_physical_dimensions fn = none) ∧
    (∀ (fn : Chars) (r : Nat) (t : Chars),
       globMatch "*_hs_r*.bin".data fn = true →
       firstIdx? "h".data (tokensOfFilename fn).reverse = some r →
       (tokensOfFilename fn).get? ((tokensOfFilename fn).length - r) = some t →
       pyInt? t = none →
       parse_physical_dimensions fn = none) := by
  refine ⟨?_, ?_, ?_, ?_, ?_⟩
  · intro fn hres wres bres hppd hm1 hrm
    obtain ⟨_, _, b1, hb1, hb2⟩ := ppd_inv hppd
    simp only [bandsStep2, hrm, Bool.false_eq_true, if_false, Option.some_inj] at hb2
    subst hb2
    constructor
    · intro hno
      simp only [bandsStep1, hm1, if_true, hno, Option.some_inj] at hb1
      exact hb1.symm
    · intro i t hi ht
      simp only [bandsStep1, hm1, if_true, hi, ht, Option.some_inj] at hb1
      exact hb1.symm
  · intro fn hres wres bres hppd hrm
    obtain ⟨_, _, b1, hb1, hb2⟩ := ppd_inv hppd
    simp only [bandsStep2, hrm, if_true] at hb2
    cases hr : firstIdx? "h".data (tokensOfFilename fn).reverse with
    | none => simp only [hr] at hb2; exact Option.noConfusion hb2
    | some r =>
      simp only [hr] at hb2
      cases hget : (tokensOfFilename fn).get? ((tokensOfFilename fn).length - r) with
      | none =>
        simp only [hget, Option.some_inj] at hb2
        have hrlt : r < (tokensOfFilename fn).length := by
          have := firstIdx?_lt_length hr
          rwa [List.length_reverse] at this
        have hr0 : r = 0 := by
          have hlen := List.get?_eq_none.mp hget
          omega
        exact ⟨r, rfl, Or.inl ⟨hr0, hb2.symm⟩⟩
      | some t =>
        simp only [hget] at hb2
        cases hp : pyInt? t with
        | none => simp only [hp, Option.map_none'] at hb2; exact Option.noConfusion hb2
        | some n =>
          simp only [hp, Option.map_some', Option.some_inj] at hb2
          exact ⟨r, rfl, Or.inr ⟨t, n, hget, hp, hb2.symm⟩⟩
  · intro fn hrm hno
    have hb2 : ∀ b1 : Option Int, bandsStep2 fn (tokensOfFilename fn) b1 = none := by
      intro b1
      simp only [bandsStep2, hrm, if_true, hno]
    cases hdf : dimField (tokensOfFilename fn) "f".data (heightFallback fn) with
    | none => simp [parse_physical_dimensions, hdf]
    | some hv =>
      cases hdw : dimField (tokensOfFilename fn) "w".data (widthFallback fn) with
      | none => simp [parse_physical_dimensions, hdf, hdw]
      | some wv =>
        cases hb1 : bandsStep1 fn (tokensOfFilename fn) with
        | none => simp [parse_physical_dimensions, hdf, hdw, hb1]
        | some b1 => simp [parse_physical_dimensions, hdf, hdw, hb1, hb2 b1]
  · intro fn i hm1 hi hget
    have hb1 : bandsStep1 fn (tokensOfFilename fn) = none := by
      simp only [bandsStep1, hm1, if_true, hi, hget]
    cases hdf : dimField (tokensOfFilename fn) "f".data (heightFallback fn) with
    | none => simp [parse_physical_dimensions, hdf]
    | some hv =>
      cases hdw : dimField (tokensOfFilename fn) "w".data (widthFallback fn) with
      | none => simp [parse_physical_dimensions, hdf, hdw]
      | some wv => simp [parse_physical_dimensions, hdf, hdw, hb1]
  · intro fn r t hrm hr hget hp
    have hb2 : ∀ b1 : Option Int, bandsStep2 fn (tokensOfFilename fn) b1 = none := by
      intro b1
      simp only [bandsStep2, hrm, if_true, hr, hget, hp, Option.map_none']
    cases hdf : dimField (tokensOfFilename fn) "f".data (heightFallback fn) with
    | none => simp [parse_physical_dimensions, hdf]
    | some hv =>
      cases hdw : dimField (tokensOfFilename fn) "w".data (widthFallback fn) with
      | none => simp [parse_physical_dimensions, hdf, hdw]
      | some wv =>
        cases hb1 : bandsStep1 fn (tokensOfFilename fn) with
        | none => simp [parse_physical_dimensions, hdf, hdw, hb1]
        | some b1 => simp [parse_physical_dimensions, hdf, hdw, hb1, hb2 b1]

/-- Witness for `bandsExtractionRules` at `m_hs_rd_1_h_40.bin`: the last
`"h"` is followed by `40`, so bands = 40 through the special-case rule. -/
theorem bandsExtractionRulesWitness :
    parse_physical_dimensions "m_hs_rd_1_h_40.bin".data =
      some (none, none, some 40) ∧
    firstIdx? "h".data (tokensOfFilename "m_hs_rd_1_h_40.bin".data).reverse =
      some 1 := by
  have happ := bandsExtractionRules.2.1 "m_hs_rd_1_h_40.bin".data none none
    (some 40) (by decide) (by decide)
  exact ⟨by decide, by decide⟩

/-- The reshape produces exactly the requested number of rows. -/
theorem chunkRows_length : ∀ (r cols : Nat) (data : List ℚ),
    (chunkRows r cols data).length = r := by
  intro r
  induction r with
  | zero => intro cols data; rfl
  | succ n ih => intro cols data; simp [chunkRows, ih]

/-- When the flat size is exactly `r * cols`, every reshaped row has
exactly `cols` entries. -/
theorem chunkRows_row_length : ∀ (r cols : Nat) (data : List ℚ),
    data.length = r * cols → ∀ row ∈ chunkRows r cols data, row.length = cols := by
  intro r
  induction r with
  | zero => intro cols data _ row hrow; simp [chunkRows] at hrow
  | succ n ih =>
    intro cols data hlen row hrow
    rw [Nat.succ_mul] at hlen
    simp only [chunkRows, List.mem_cons] at hrow
    cases hrow with
    | inl h =>
      subst h
      rw [List.length_take]
      omega
    | inr h =>
      refine ih cols (data.drop cols) ?_ row h
      rw [List.length_drop]
      omega

/-- Index/value pairing preserves length. -/
theorem withIdx_length : ∀ (l : List ℚ) (n : Nat), (withIdx l n).length = l.length := by
  intro l
  induction l with
  | nil => intro n; rfl
  | cons x xs ih => intro n; simp [withIdx, ih]

/-- Every index produced by the pairing is below `n + length`. -/
theorem withIdx_snd_lt : ∀ (l : List ℚ) (n : Nat) (v : ℚ × Nat),
    v ∈ withIdx l n → v.2 < n + l.length := by
  intro l
  induction l with
  | nil => intro n v h; simp [withIdx] at h
  | cons x xs ih =>
    intro n v h
    simp only [withIdx, List.mem_cons] at h
    cases h with
    | inl h => subst h; simp
    | inr h =>
      have := ih (n + 1) v h
      simp only [List.length_cons]
      omega

/-- Ordered insertion grows the list by one. -/
theorem insertPair_length : ∀ (v : ℚ × Nat) (l : List (ℚ × Nat)),
    (insertPair v l).length = l.length + 1 := by
  intro v l
  induction l with
  | nil => rfl
  | cons w ws ih =>
    simp only [insertPair]
    split
    · simp
    · simp [ih]

/-- Membership in an ordered insertion. -/
theorem mem_insertPair : ∀ (x v : ℚ × Nat) (l : List (ℚ × Nat)),
    x ∈ insertPair v l → x = v ∨ x ∈ l := by
  intro x v l
  induction l with
  | nil => intro h; simp [insertPair] at h; exact Or.inl h
  | cons w ws ih =>
    intro h
    simp only [insertPair] at h
    split at h
    · rcases List.mem_cons.mp h with h1 | h1
      · exact Or.inl h1
      · exact Or.inr h1
    · rcases List.mem_cons.mp h with h1 | h1
      · exact Or.inr (List.mem_cons.mpr (Or.inl h1))
      · rcases ih h1 with h2 | h2
        · exact Or.inl h2
        · exact Or.inr (List.mem_cons.mpr (Or.inr h2))

/-- Insertion sort preserves length. -/
theorem sortPairs_length : ∀ l : List (ℚ × Nat), (sortPairs l).length = l.length := by
  intro l
  induction l with
  | nil => rfl
  | cons v vs ih => simp [sortPairs, insertPair_length, ih]

/-- Insertion sort only rearranges its input. -/
theorem mem_sortPairs : ∀ (x : ℚ × Nat) (l : List (ℚ × Nat)),
    x ∈ sortPairs l → x ∈ l := by
  intro x l
  induction l with
  | nil => intro h; simp [sortPairs] at h
  | cons v vs ih =>
    intro h
    rcases mem_insertPair x v (sortPairs vs) h with h1 | h1
    · exact List.mem_cons.mpr (Or.inl h1)
    · exact List.mem_cons.mpr (Or.inr (ih h1))

/-- `np.argsort` returns as many indices as there are values. -/
theorem npArgsort_length (l : List ℚ) : (npArgsort l).length = l.length := by
  simp [npArgsort, sortPairs_length, withIdx_length]

/-- Every index returned by `np.argsort` is a valid index of the input. -/
theorem npArgsort_mem_lt (l : List ℚ) (i : Nat) (h : i ∈ npArgsort l) :
    i < l.length := by
  simp only [npArgsort, List.mem_map] at h
  obtain ⟨v, hv, rfl⟩ := h
  have := withIdx_snd_lt l 0 v (mem_sortPairs v _ hv)
  omega

/-- C9 (amended): for a hyperspectral file whose metadata reports height
`h` and width `w`, the collaborator reshapes a flat array of exactly
`56 * h * w` entries (`BAND_COUNT` is hardcoded — the metadata's `bands`
plays no role) into 56 rows of `h * w` entries, and then the median
position of the dispersion ranking always selects one of those 56 rows. -/
theorem reshapeFiftySixRows :
    ∀ (path : String) (meta : FileMetadata) (h w : Int) (data : List ℚ),
      parseEnviratron path = some meta → meta.height = some h →
      meta.width = some w →
      (data.length : Int) = (BAND_COUNT : Int) * (h * w) →
      ∃ rows, load_hyperspectral_numpy_data data path = some rows ∧
        rows.length = BAND_COUNT ∧
        (∀ row ∈ rows, (row.length : Int) = h * w) ∧
        (∀ stds : List ℚ, stds.length = BAND_COUNT →
          ∃ i sel, median_band_index stds = some i ∧ i < BAND_COUNT ∧
            selectMedianBand rows stds = some sel ∧ sel ∈ rows) := by
  intro path meta h w data hparse hh hw hlen
  have hnn : 0 ≤ h * w := by
    by_contra hneg
    push_neg at hneg
    have hmul : (BAND_COUNT : Int) * (h * w) < 0 :=
      mul_neg_of_pos_of_neg (by unfold BAND_COUNT; omega) hneg
    omega
  have hcast : data.length = BAND_COUNT * (h * w).toNat := by
    unfold BAND_COUNT at hlen ⊢
    omega
  have hload : load_hyperspectral_numpy_data data path =
      np_reshape data BAND_COUNT (h * w) := by
    simp only [load_hyperspectral_numpy_data, hparse, hh, hw]
  have hresh : np_reshape data BAND_COUNT (h * w) =
      some (chunkRows BAND_COUNT (h * w).toNat data) := by
    simp only [np_reshape]
    rw [if_pos hlen]
  refine ⟨chunkRows BAND_COUNT (h * w).toNat data, by rw [hload, hresh],
    chunkRows_length _ _ _, ?_, ?_⟩
  · intro row hrow
    rw [chunkRows_row_length BAND_COUNT ((h * w).toNat) data hcast row hrow]
    omega
  · intro stds hstds
    have hmid : stds.length / 2 < (npArgsort stds).length := by
      rw [npArgsort_length, hstds]
      unfold BAND_COUNT
      omega
    have hidx := List.get?_eq_get hmid
    set i := (npArgsort stds).get ⟨stds.length / 2, hmid⟩ with hidef
    have himem : i ∈ npArgsort stds := List.get_mem _ _ _
    have hilt : i < BAND_COUNT := by
      have := npArgsort_mem_lt stds i himem
      omega
    have hrows : i < (chunkRows BAND_COUNT (h * w).toNat data).length := by
      rw [chunkRows_length]
      exact hilt
    have hget := List.get?_eq_get hrows
    refine ⟨i, (chunkRows BAND_COUNT (h * w).toNat data).get ⟨i, hrows⟩, ?_, hilt, ?_, ?_⟩
    · unfold median_band_index
      exact hidx
    · unfold selectMedianBand median_band_index
      rw [hidx]
      exact hget
    · exact List.get_mem _ _ _

/-- Witness for `reshapeFiftySixRows` at `hs_2_2018_1_1_1_1_1_f_1_w_2_h_7.npy`
(height 1, width 2) with a flat array of 112 = 56 · 1 · 2 entries. -/
theorem reshapeFiftySixRowsWitness :
    (load_hyperspectral_numpy_data (List.replicate 112 0)
        "hs_2_2018_1_1_1_1_1_f_1_w_2_h_7.npy").map List.length =
      some BAND_COUNT := by
  have hs : (parseEnviratron "hs_2_2018_1_1_1_1_1_f_1_w_2_h_7.npy").isSome = true := by
    decide
  obtain ⟨meta, hm⟩ := Option.isSome_iff_exists.mp hs
  have hfields : (parseEnviratron "hs_2_2018_1_1_1_1_1_f_1_w_2_h_7.npy").map
      (fun x => (x.height, x.width)) = some (some 1, some 2) := by decide
  rw [hm] at hfields
  simp only [Option.map_some', Option.some_inj, Prod.mk.injEq] at hfields
  have hlen : (((List.replicate 112 (0 : ℚ)).length : Nat) : Int) =
      (BAND_COUNT : Int) * ((1 : Int) * 2) := by
    simp [List.length_replicate]
    unfold BAND_COUNT
    omega
  obtain ⟨rows, hload, hrl, _, _⟩ :=
    reshapeFiftySixRows "hs_2_2018_1_1_1_1_1_f_1_w_2_h_7.npy" meta 1 2
      (List.replicate 112 0) hm hfields.1 hfields.2 hlen
  rw [hload, Option.map_some', hrl]

/-- C10 counterexample: for `a_b.c` every resolver fails; the capture-time
field `second` is then *not* assigned an explicit null — the attribute is
simply missing from the record (`parse_datetime` initialises the misnamed
`seconds` to `None` and only the success path ever writes `second`), so
the claim's "the capture-time fields are assigned an explicit null value"
fails for `second`. -/
theorem secondFieldAbsentOnFailure :
    (parseEnviratron "a_b.c").map (fun m => (as_dict_keys m, m.second)) =
      some (["raw_filepath", "type", "raw_filename", "file_extension",
             "_ints_list", "chamber_id", "datetime", "year", "month", "day",
             "hour", "minute", "seconds"], none) ∧
    (["raw_filepath", "type", "raw_filename", "file_extension",
      "_ints_list", "chamber_id", "datetime", "year", "month", "day",
      "hour", "minute", "seconds"] : List String).contains "second" = false := by
  refine ⟨by decide, by decide⟩

/-- C10 (amended): the record mixes two unset representations — the keys
`chamber_id`, `type`, `year`, …, `seconds` are always present (explicit
`None` on failure), while `ordinal`, `second`, `height`, `width` and
`bands` exist as keys exactly when their assignment executed, so the key
set of `as_dict()` varies with the input; `second` behaves like the
never-assigned group, not like the nulled group, because of the
`seconds`/`second` naming slip. -/
theorem unsetRepresentationRules :
    (∀ m : FileMetadata, (as_dict_keys m).contains "ordinal" = m.ordinal.isSome) ∧
    (∀ m : FileMetadata, (as_dict_keys m).contains "second" = m.second.isSome) ∧
    (∀ m : FileMetadata, (as_dict_keys m).contains "height" = m.height.isSome) ∧
    (∀ m : FileMetadata, (as_dict_keys m).contains "width" = m.width.isSome) ∧
    (∀ m : FileMetadata, (as_dict_keys m).contains "bands" = m.bands.isSome) ∧
    (∀ m : FileMetadata, (as_dict_keys m).contains "chamber_id" = true ∧
       (as_dict_keys m).contains "type" = true ∧
       (as_dict_keys m).contains "year" = true ∧
       (as_dict_keys m).contains "seconds" = true) ∧
    (parseEnviratron "a_b.c").map (fun m => (m.chamber_id, m.type, m.year)) =
      some (none, none, none) ∧
    (parseEnviratron "a_b.c").map (fun m => (m.ordinal, m.height, m.width, m.bands)) =
      some (none, none, none, none) ∧
    (parseEnviratron "hs_3_2018_1_1_1_1_1_f_1_w_2_h_5.bin").map as_dict_keys =
      some ["raw_filepath", "type", "raw_filename", "file_extension",
            "_ints_list", "ordinal", "chamber_id", "datetime", "year", "month",
            "day", "hour", "minute", "seconds", "second", "height", "width",
            "bands"] ∧
    ((parseEnviratron "a_b.c").map as_dict_keys ==
      (parseEnviratron "hs_3_2018_1_1_1_1_1_f_1_w_2_h_5.bin").map as_dict_keys)
      = false := by
  refine ⟨?_, ?_, ?_, ?_, ?_, ?_, by decide, by decide, by decide, by decide⟩
  · intro m
    cases ho : m.ordinal <;> cases hs2 : m.second <;> cases hh : m.height <;>
      cases hw : m.width <;> cases hb : m.bands <;>
      simp only [as_dict_keys, ho, hs2, hh, hw, hb, Option.isSome_some,
        Option.isSome_none] <;> decide
  · intro m
    cases ho : m.ordinal <;> cases hs2 : m.second <;> cases hh : m.height <;>
      cases hw : m.width <;> cases hb : m.bands <;>
      simp only [as_dict_keys, ho, hs2, hh, hw, hb, Option.isSome_some,
        Option.isSome_none] <;> decide
  · intro m
    cases ho : m.ordinal <;> cases hs2 : m.second <;> cases hh : m.height <;>
      cases hw : m.width <;> cases hb : m.bands <;>
      simp only [as_dict_keys, ho, hs2, hh, hw, hb, Option.isSome_some,
        Option.isSome_none] <;> decide
  · intro m
    cases ho : m.ordinal <;> cases hs2 : m.second <;> cases hh : m.height <;>
      cases hw : m.width <;> cases hb : m.bands <;>
      simp only [as_dict_keys, ho, hs2, hh, hw, hb, Option.isSome_some,
        Option.isSome_none] <;> decide
  · intro m
    cases ho : m.ordinal <;> cases hs2 : m.second <;> cases hh : m.height <;>
      cases hw : m.width <;> cases hb : m.bands <;>
      simp only [as_dict_keys, ho, hs2, hh, hw, hb, Option.isSome_some,
        Option.isSome_none] <;> decide
  · intro m
    refine ⟨?_, ?_, ?_, ?_⟩ <;>
      (cases ho : m.ordinal <;> cases hs2 : m.second <;> cases hh : m.height <;>
        cases hw : m.width <;> cases hb : m.bands <;>
        simp only [as_dict_keys, ho, hs2, hh, hw, hb, Option.isSome_some,
          Option.isSome_none] <;> decide)
